import Mathlib

/-!
Verification of the profile-aggregation subsystem of a Python MCP server
(`src/server.py`).  The two tool entry points (`get_github_profile_data`,
`get_leetcode_profile_data`) and the identifier resolver
(`_extract_username`) are shallowly embedded below.  Network I/O is made
explicit: each entry point takes the settled outcome of its outbound
request(s) as an argument (`FetchResult`), and the external date parser
(dateutil) is passed in as a function `String -> Option Int` returning the
parsed instant in seconds, `none` meaning the parser raises.  An uncaught
Python exception escaping the tool function is modelled by the `crash`
constructor, distinct from a typed `McpError` (`err`).
-/

/-- Whitespace characters stripped by Python `str.strip()` (ASCII subset;
the inputs of interest here only involve these). -/
def isPySpace (c : Char) : Bool :=
  c = ' ' || c = '\t' || c = '\n' || c = '\r' || c = '\x0b' || c = '\x0c'

/-- Strip leading and trailing whitespace from a list of characters. -/
def stripChars (l : List Char) : List Char :=
  ((l.dropWhile isPySpace).reverse.dropWhile isPySpace).reverse

/-- Models Python `str.strip()`. -/
def pyStrip (s : String) : String :=
  ⟨stripChars s.data⟩

/-- `listStarts pat l` is true when `l` starts with `pat`. -/
def listStarts : List Char → List Char → Bool
  | [], _ => true
  | _ :: _, [] => false
  | a :: as, b :: bs => a == b && listStarts as bs

/-- `listContains pat l` models Python `pat in l` on strings: `pat` occurs
as a contiguous substring of `l`. -/
def listContains (pat : List Char) : List Char → Bool
  | [] => listStarts pat []
  | c :: t => listStarts pat (c :: t) || listContains pat t

/-- Models `urllib.parse.urlparse(s).path` for the inputs the resolver
feeds it: if the string has a `://` scheme separator, the path starts at
the first slash after the authority; otherwise the whole string is the
path.  Query/fragment splitting is omitted (unused by the claims, which
never enter the URL branch with such inputs). -/
def urlparsePath (s : String) : String :=
  let l := s.data
  if listContains ("://").data l then
    let afterScheme := (l.dropWhile (fun c => !(c == ':'))).drop 3
    ⟨afterScheme.dropWhile (fun c => !(c == '/'))⟩
  else
    s

/-- Strip only slash characters from both ends (Python `str.strip('/')`). -/
def stripSlashes (s : String) : String :=
  ⟨((s.data.dropWhile (fun c => c == '/')).reverse.dropWhile (fun c => c == '/')).reverse⟩

/-- Split on every separator character, keeping empty pieces — the
semantics of Python `str.split(sep)` with an explicit separator. -/
def splitCharsAux (p : Char → Bool) : List Char → List Char → List String
  | [], acc => [⟨acc.reverse⟩]
  | c :: t, acc =>
    if p c then ⟨acc.reverse⟩ :: splitCharsAux p t []
    else splitCharsAux p t (c :: acc)

/-- Python `s.split(sep)` for a single-character separator given by `p`. -/
def pySplit (s : String) (p : Char → Bool) : List String :=
  splitCharsAux p s.data []

/-- Embeds `_extract_username` from `src/server.py`: trim the input; if it
contains `github.com`, parse as URL, split the path on slashes and return
the first segment when non-empty (`None` otherwise); otherwise return the
trimmed string unchanged. -/
def _extract_username (username_or_url : String) : Option String :=
  let cleaned := pyStrip username_or_url
  if listContains ("github.com").data cleaned.data then
    let path := urlparsePath cleaned
    let parts := pySplit (stripSlashes path) (fun c => c == '/')
    match parts with
    | [] => none
    | p :: _ => if p = "" then none else some p
  else
    some cleaned

/-- MCP error codes used by the server: `INVALID_PARAMS` (-32602) and
`INTERNAL_ERROR` (-32603). -/
inductive McpErrorCode where
  | invalidParams
  | internalError
deriving DecidableEq, Repr

/-- Settled outcome of one outbound HTTP request: either a response with a
status code and decoded JSON body, or a raised connection/timeout
exception carried as a description (the code-host path gathers both
requests with `return_exceptions=True`). -/
inductive FetchResult (β : Type) where
  | response (status : ℤ) (body : β)
  | exn (desc : String)

/-- Raw JSON repository object fields read by the server; absent keys are
`none` (the code reads them with `.get` and a default). -/
structure RawRepo where
  stargazers_count : Option ℤ
  fork : Option Bool
  language : Option String

/-- Raw JSON user-profile object fields read by the server. -/
structure RawProfile where
  login : Option String
  name : Option String
  bio : Option String
  followers : Option ℤ
  following : Option ℤ
  public_repos : Option ℤ
  created_at : Option String
  updated_at : Option String
  twitter_username : Option String

/-- The `GitHubProfileData` pydantic output model. -/
structure GitHubProfileData where
  username : String
  name : Option String
  bio : Option String
  followers : ℤ
  following : ℤ
  public_repos : ℤ
  total_stars : ℤ
  fork_count : ℤ
  account_age_days : ℤ
  last_activity_days : ℤ
  top_languages : List String
  twitter_username : Option String
  ai_instruction : String

/-- `sum(repo.get('stargazers_count', 0) for repo in repos)`. -/
def total_stars_of (repos : List RawRepo) : ℤ :=
  (repos.map (fun r => r.stargazers_count.getD 0)).sum

/-- `sum(1 for repo in repos if repo.get('fork', False))`. -/
def fork_count_of (repos : List RawRepo) : ℤ :=
  ((repos.filter (fun r => r.fork.getD false)).length : ℤ)

/-- The repository languages that enter the frequency table: the loop
skips a missing/null language and the literal string `"null"`
(`if lang and lang != "null"`; a falsy empty string is also skipped). -/
def langsOf (repos : List RawRepo) : List String :=
  repos.filterMap (fun r =>
    match r.language with
    | some l => if l = "" || l = "null" then none else some l
    | none => none)

/-- Keys of the Python dict `lang_counts` in insertion order: each
language once, at its first occurrence. -/
def firstSeenKeys : List String → List String
  | [] => []
  | a :: t => a :: (firstSeenKeys t).filter (fun b => !(b == a))

/-- Occurrence count of language `l`, i.e. the value `lang_counts[l]`. -/
def cntOf (repos : List RawRepo) (l : String) : ℕ :=
  (langsOf repos).count l

/-- Insert a value into a strictly descending list of naturals. -/
def insertDescNat (v : ℕ) : List ℕ → List ℕ
  | [] => [v]
  | w :: ws => if w < v then v :: w :: ws else w :: insertDescNat v ws

/-- Sort a list of naturals in descending order. -/
def sortDescNat : List ℕ → List ℕ
  | [] => []
  | v :: vs => insertDescNat v (sortDescNat vs)

/-- Concatenate, for each count value in order, the keys having that
count, in key order. -/
def groupConcat (keys : List String) (cnt : String → ℕ) : List ℕ → List String
  | [] => []
  | v :: vs => keys.filter (fun k => cnt k == v) ++ groupConcat keys cnt vs

/-- Embeds `sorted(lang_counts, key=lang_counts.get, reverse=True)`:
Python `sorted` is stable (also with `reverse=True`), and a stable
descending sort of the distinct dict keys equals listing, for each count
value in descending order, the keys with that count in insertion order. -/
def sortedLangKeys (repos : List RawRepo) : List String :=
  let keys := firstSeenKeys (langsOf repos)
  let cnt := cntOf repos
  groupConcat keys cnt (sortDescNat ((keys.map cnt).dedup))

/-- `sorted(lang_counts, key=lang_counts.get, reverse=True)[:3]`. -/
def top_languages_of (repos : List RawRepo) : List String :=
  (sortedLangKeys repos).take 3

/-- `(now - ts).days` on a timedelta, with both instants in seconds:
Python `timedelta.days` is floor division by 86400. -/
def daysBetween (now ts : ℤ) : ℤ :=
  (now - ts).fdiv 86400

/-- The `github_stats_summary` f-string. -/
def github_stats_summary (username : String)
    (public_repos total_stars followers account_age_days : ℤ) : String :=
  "The GitHub user \x27" ++ username ++ "\x27 has " ++ toString public_repos ++
  " public repos with a total of " ++ toString total_stars ++ " stars, and " ++
  toString followers ++ " followers. Their account is " ++
  toString account_age_days ++ " days old."

/-- The `twitter_instruction` string, branching on truthiness of the
`twitter_username` field (absent or empty string both falsy). -/
def twitter_instruction_of (twitter_username : Option String) : String :=
  match twitter_username with
  | some t =>
    if t = "" then
      "They did not list a Twitter (X) account, so roast them for being out of the loop or afraid of public scrutiny."
    else
      "They also have a Twitter (X) account: @" ++ t ++ ". Make sure to roast them for probably posting cringe tech takes or having zero engagement there."
  | none =>
    "They did not list a Twitter (X) account, so roast them for being out of the loop or afraid of public scrutiny."

/-- The final `instruction` f-string of the GitHub tool. -/
def github_instruction (username : String)
    (public_repos total_stars followers account_age_days : ℤ)
    (twitter_username : Option String) : String :=
  github_stats_summary username public_repos total_stars followers account_age_days ++
  " " ++ twitter_instruction_of twitter_username ++
  " Based on all this data, perform the following two tasks. Part 1: Write a long, detailed, and brutal roast that combines both their GitHub and Twitter persona. Part 2: After the roast, provide a separate section titled \x27Actionable Tips\x27 with 3 concrete pieces of advice for improving their overall online developer presence."

/-- Construction of the `GitHubProfileData` record returned on success. -/
def buildGithubRecord (login username : String) (p : RawProfile)
    (repos : List RawRepo) (account_age_days last_activity_days : ℤ) :
    GitHubProfileData :=
  { username := login
    name := p.name
    bio := p.bio
    followers := p.followers.getD 0
    following := p.following.getD 0
    public_repos := p.public_repos.getD 0
    total_stars := total_stars_of repos
    fork_count := fork_count_of repos
    account_age_days := account_age_days
    last_activity_days := last_activity_days
    top_languages := top_languages_of repos
    twitter_username := p.twitter_username
    ai_instruction := github_instruction username (p.public_repos.getD 0)
      (total_stars_of repos) (p.followers.getD 0) account_age_days
      p.twitter_username }

/-- Outcome of one GitHub tool invocation: a record, a typed `McpError`,
or an uncaught Python exception (`crash`). -/
inductive GhOutcome where
  | ok (r : GitHubProfileData)
  | err (code : McpErrorCode) (message : String)
  | crash (desc : String)

/-- Embeds the body of `get_github_profile_data`.  `parseDate` stands for
`dateutil.parser.parse` (returns the instant in seconds, `none` when the
parser raises — in particular on the empty string); `now` is the current
instant in seconds; `profile_res` and `repos_res` are the settled
outcomes of the two concurrently issued requests. -/
def get_github_profile_data (parseDate : String → Option ℤ) (now : ℤ)
    (username_or_url : String)
    (profile_res : FetchResult RawProfile)
    (repos_res : FetchResult (List RawRepo)) : GhOutcome :=
  match _extract_username username_or_url with
  | none => .err .invalidParams ("Invalid username or URL.")
  | some username =>
    if username = "" then .err .invalidParams ("Invalid username or URL.")
    else
      match profile_res with
      | .exn desc => .err .internalError ("Failed to fetch profile: " ++ desc)
      | .response status profile =>
        if status = 404 then
          .err .invalidParams ("User \x27" ++ username ++ "\x27 not found on GitHub.")
        else if status ≠ 200 then
          .err .internalError ("GitHub API returned " ++ toString status ++ " for profile.")
        else
          let repos : List RawRepo :=
            match repos_res with
            | .response rstatus rbody => if rstatus = 200 then rbody else []
            | .exn _ => []
          match parseDate (profile.created_at.getD ("")) with
          | none => .crash ("uncaught dateutil ParserError")
          | some created =>
            match parseDate (profile.updated_at.getD ("")) with
            | none => .crash ("uncaught dateutil ParserError")
            | some updated =>
              match profile.login with
              | none => .crash ("uncaught pydantic ValidationError: username must be a string")
              | some login =>
                .ok (buildGithubRecord login username profile repos
                      (daysBetween now created) (daysBetween now updated))

/-- Substring containment on strings (used to state that a rendered value
occurs verbatim in an instruction or error message). -/
def strContains (s t : String) : Prop :=
  ∃ a b : String, s = a ++ (t ++ b)

/-- The nested `profile` object of the LeetCode GraphQL response. -/
structure LCProfileStats where
  ranking : Option ℤ
  reputation : Option ℤ

/-- One entry of `submitStats.acSubmissionNum` (the `difficulty` key is
accessed with brackets, so it is present in the payloads modelled here). -/
structure LCSubmitEntry where
  difficulty : String
  count : Option ℤ
  submissions : Option ℤ

/-- The `data.matchedUser` object.  The two-level read
`data.get("submitStats", \x7b\x7d).get("acSubmissionNum", [])` is collapsed
into one optional list (absence at either level yields `[]`). -/
structure LCMatchedUser where
  username : Option String
  profile : Option LCProfileStats
  acSubmissionNum : Option (List LCSubmitEntry)

/-- The `LeetCodeProfileData` pydantic output model (the float
`acceptance_rate` is modelled as a rational). -/
structure LeetCodeProfileData where
  username : String
  ranking : ℤ
  reputation : ℤ
  total_problems_solved : ℤ
  easy_solved : ℤ
  medium_solved : ℤ
  hard_solved : ℤ
  acceptance_rate : ℚ
  ai_instruction : String

/-- `next((s for s in submit_stats if s['difficulty'] == tier), \x7b\x7d)`
followed by `.get('count', 0)`. -/
def tierCount (submit_stats : List LCSubmitEntry) (tier : String) : ℤ :=
  match submit_stats.find? (fun s => s.difficulty == tier) with
  | some e => e.count.getD 0
  | none => 0

/-- Same lookup for the `submissions` key. -/
def tierSubmissions (submit_stats : List LCSubmitEntry) (tier : String) : ℤ :=
  match submit_stats.find? (fun s => s.difficulty == tier) with
  | some e => e.submissions.getD 0
  | none => 0

/-- Round a rational to the nearest integer, ties to even — the behaviour
of Python `round` on exactly representable values. -/
def roundHalfEven (q : ℚ) : ℤ :=
  if q - (⌊q⌋ : ℚ) < 1/2 then ⌊q⌋
  else if 1/2 < q - (⌊q⌋ : ℚ) then ⌊q⌋ + 1
  else if ⌊q⌋ % 2 = 0 then ⌊q⌋ else ⌊q⌋ + 1

/-- Python `round(x, 2)`. -/
def round2 (q : ℚ) : ℚ :=
  ((roundHalfEven (q * 100) : ℚ)) / 100

/-- `round((total_solved / total_submissions) * 100, 2) if
total_submissions > 0 else 0`. -/
def acceptance_rate_of (total_solved total_submissions : ℤ) : ℚ :=
  if 0 < total_submissions then
    round2 (((total_solved : ℚ) / (total_submissions : ℚ)) * 100)
  else 0

/-- Rendering of the ranking slot in the instruction f-string:
`profile_stats.get('ranking', 'N/A')`. -/
def rankingDisplay (ranking : Option ℤ) : String :=
  match ranking with
  | some r => toString r
  | none => "N/A"

/-- Rendering of the float acceptance rate inside the f-string; Python
float formatting is abstracted as the rational rendering (no claim
depends on this slot). -/
def ratDisplay (q : ℚ) : String :=
  toString q

/-- The `instruction` f-string of the LeetCode tool. -/
def leetcode_instruction (username : String) (profile_stats : LCProfileStats)
    (total_solved easy medium hard : ℤ) (acceptance_rate : ℚ) : String :=
  "The LeetCode user \x27" ++ username ++ "\x27 has a ranking of " ++
  rankingDisplay profile_stats.ranking ++ " and has solved a total of " ++
  toString total_solved ++ " problems (" ++ toString easy ++ " Easy, " ++
  toString medium ++ " Medium, " ++ toString hard ++ " Hard). Their overall acceptance rate is a pitiful " ++
  ratDisplay acceptance_rate ++
  "%. Based on these stats, perform two tasks. Part 1: Write a savage roast about their problem-solving skills, focusing on their acceptance rate and difficulty distribution. Part 2: After the roast, give them a section called \x27Grind Plan\x27 with 3 actionable tips on how to actually get good at DSA."

/-- Construction of the `LeetCodeProfileData` record returned on success
(`username_arg` is the tool argument used inside the f-string,
`data_username` the `username` field of `matchedUser` stored in the
record). -/
def buildLeetcodeRecord (username_arg data_username : String)
    (profile_stats : LCProfileStats) (submit_stats : List LCSubmitEntry) :
    LeetCodeProfileData :=
  let total_solved := tierCount submit_stats ("All")
  let total_submissions := tierSubmissions submit_stats ("All")
  let rate := acceptance_rate_of total_solved total_submissions
  { username := data_username
    ranking := profile_stats.ranking.getD 0
    reputation := profile_stats.reputation.getD 0
    total_problems_solved := total_solved
    easy_solved := tierCount submit_stats ("Easy")
    medium_solved := tierCount submit_stats ("Medium")
    hard_solved := tierCount submit_stats ("Hard")
    acceptance_rate := rate
    ai_instruction := leetcode_instruction username_arg profile_stats
      total_solved (tierCount submit_stats ("Easy"))
      (tierCount submit_stats ("Medium")) (tierCount submit_stats ("Hard"))
      rate }

/-- Outcome of one LeetCode tool invocation. -/
inductive LCOutcome where
  | ok (r : LeetCodeProfileData)
  | err (code : McpErrorCode) (message : String)
  | crash (desc : String)

/-- Embeds the body of `get_leetcode_profile_data`.  The single request
either raises (`exn`, caught as `httpx.HTTPError`) or yields a response;
`response.raise_for_status()` raises `HTTPStatusError` exactly for status
codes of at least 400; the body is `data.matchedUser` of the decoded
JSON (`none` when null or absent). -/
def get_leetcode_profile_data (username : String)
    (res : FetchResult (Option LCMatchedUser)) : LCOutcome :=
  match res with
  | .exn desc => .err .internalError ("Connection to LeetCode API failed: " ++ desc)
  | .response status body =>
    if 400 ≤ status then
      .err .internalError ("LeetCode API returned an error: " ++ toString status)
    else
      match body with
      | none => .err .invalidParams ("User \x27" ++ username ++ "\x27 not found on LeetCode.")
      | some data =>
        let profile_stats := data.profile.getD ⟨none, none⟩
        let submit_stats := data.acSubmissionNum.getD []
        match data.username with
        | none => .crash ("uncaught pydantic ValidationError: username must be a string")
        | some data_username =>
          .ok (buildLeetcodeRecord username data_username profile_stats submit_stats)

/-- The record carried by a successful GitHub outcome, if any. -/
def ghOutcomeRecord : GhOutcome → Option GitHubProfileData
  | .ok r => some r
  | .err _ _ => none
  | .crash _ => none

/-- The record carried by a successful LeetCode outcome, if any. -/
def lcOutcomeRecord : LCOutcome → Option LeetCodeProfileData
  | .ok r => some r
  | .err _ _ => none
  | .crash _ => none

/-- Position of the first occurrence of `a` in a list of keys (used to
state the first-seen tie-break of the language ranking). -/
def posIn (a : String) : List String → ℕ
  | [] => 0
  | b :: t => if a = b then 0 else posIn a t + 1

/-- The repository list of the worked example in the spec: primary
languages `[Go, Go, Rust, null, Python]`. -/
def exampleRepos : List RawRepo :=
  [⟨none, none, some ("Go")⟩, ⟨none, none, some ("Go")⟩,
   ⟨none, none, some ("Rust")⟩, ⟨none, none, none⟩,
   ⟨none, none, some ("Python")⟩]

/-- A 200 profile body whose `created_at` key is absent: the code then
feeds `''` to the date parser. -/
def noCreatedProfile : RawProfile :=
  ⟨some ("alice"), none, none, none, none, none, none, none, none⟩

/-- A profile body whose timestamps parse to a future instant (relative
to the `now` used in the counterexample). -/
def futureProfile : RawProfile :=
  ⟨some ("alice"), none, none, some 0, some 0, some 0,
   some ("2099-01-01T00:00:00Z"), some ("2099-01-01T00:00:00Z"), none⟩

/-- A matched user reporting more accepted than total submissions
(300 solved of 200 submitted). -/
def overSubmitUser : LCMatchedUser :=
  ⟨some ("bob"), some ⟨some 1, some 0⟩, some [⟨("All"), some 300, some 200⟩]⟩

theorem mem_insertDescNat {a v : ℕ} {l : List ℕ} :
    a ∈ insertDescNat v l ↔ a = v ∨ a ∈ l := by
  induction l with
  | nil => simp [insertDescNat]
  | cons w ws ih =>
    by_cases h : w < v
    · simp [insertDescNat, h]
    · simp only [insertDescNat, if_neg h, List.mem_cons, ih]
      tauto

theorem mem_sortDescNat {a : ℕ} {l : List ℕ} :
    a ∈ sortDescNat l ↔ a ∈ l := by
  induction l with
  | nil => simp [sortDescNat]
  | cons v vs ih => simp [sortDescNat, mem_insertDescNat, ih]

theorem pairwise_insertDescNat {v : ℕ} {l : List ℕ}
    (hl : l.Pairwise (fun a b => b < a)) (hv : ∀ b ∈ l, b ≠ v) :
    (insertDescNat v l).Pairwise (fun a b => b < a) := by
  induction l with
  | nil => simp [insertDescNat]
  | cons w ws ih =>
    rw [List.pairwise_cons] at hl
    by_cases h : w < v
    · rw [insertDescNat, if_pos h]
      refine List.pairwise_cons.2 ⟨?_, List.pairwise_cons.2 ⟨hl.1, hl.2⟩⟩
      intro b hb
      rcases List.mem_cons.1 hb with rfl | hb'
      · exact h
      · exact lt_trans (hl.1 b hb') h
    · rw [insertDescNat, if_neg h]
      have hvw : v < w :=
        lt_of_le_of_ne (not_lt.1 h) (fun e => hv w (by simp) e.symm)
      refine List.pairwise_cons.2 ⟨?_, ih hl.2 (fun b hb => hv b (by simp [hb]))⟩
      intro b hb
      rcases mem_insertDescNat.1 hb with rfl | hb'
      · exact hvw
      · exact hl.1 b hb'

theorem sortDescNat_pairwise {l : List ℕ} (h : l.Nodup) :
    (sortDescNat l).Pairwise (fun a b => b < a) := by
  induction l with
  | nil => simp [sortDescNat]
  | cons v vs ih =>
    rw [List.nodup_cons] at h
    exact pairwise_insertDescNat (ih h.2)
      (fun b hb e => h.1 (e ▸ mem_sortDescNat.1 hb))

theorem pairwise_posIn {l : List String} (h : l.Nodup) :
    l.Pairwise (fun a b => posIn a l < posIn b l) := by
  induction l with
  | nil => simp
  | cons x t ih =>
    rw [List.nodup_cons] at h
    refine List.pairwise_cons.2 ⟨?_, ?_⟩
    · intro b hb
      have hbx : b ≠ x := fun e => h.1 (e ▸ hb)
      simp [posIn, hbx]
    · refine (ih h.2).imp_of_mem ?_
      intro a b ha hb hab
      have hax : a ≠ x := fun e => h.1 (e ▸ ha)
      have hbx : b ≠ x := fun e => h.1 (e ▸ hb)
      simpa [posIn, hax, hbx] using hab

theorem mem_firstSeenKeys {a : String} {l : List String} :
    a ∈ firstSeenKeys l ↔ a ∈ l := by
  induction l with
  | nil => simp [firstSeenKeys]
  | cons x t ih =>
    simp only [firstSeenKeys, List.mem_cons, List.mem_filter, bne_iff_ne, ne_eq]
    constructor
    · rintro (rfl | ⟨h1, _⟩)
      · exact Or.inl rfl
      · exact Or.inr (ih.1 h1)
    · rintro (rfl | h)
      · exact Or.inl rfl
      · by_cases hax : a = x
        · exact Or.inl hax
        · exact Or.inr ⟨ih.2 h, by simp [hax]⟩

theorem nodup_firstSeenKeys (l : List String) : (firstSeenKeys l).Nodup := by
  induction l with
  | nil => simp [firstSeenKeys]
  | cons x t ih =>
    rw [firstSeenKeys, List.nodup_cons]
    refine ⟨?_, ih.filter _⟩
    intro hx
    rw [List.mem_filter] at hx
    simp at hx

theorem mem_groupConcat {keys : List String} {cnt : String → ℕ}
    {vs : List ℕ} {b : String} (h : b ∈ groupConcat keys cnt vs) :
    ∃ v ∈ vs, b ∈ keys ∧ cnt b = v := by
  induction vs with
  | nil => simp [groupConcat] at h
  | cons v vs ih =>
    rw [groupConcat, List.mem_append] at h
    rcases h with h | h
    · rw [List.mem_filter] at h
      exact ⟨v, by simp, h.1, by simpa using h.2⟩
    · obtain ⟨v', hv', h1, h2⟩ := ih h
      exact ⟨v', by simp [hv'], h1, h2⟩

theorem pairwise_groupConcat {keys : List String} {cnt : String → ℕ}
    {vs : List ℕ} {Rk : String → String → Prop}
    (hvs : vs.Pairwise (fun a b => b < a)) (hkeys : keys.Pairwise Rk) :
    (groupConcat keys cnt vs).Pairwise
      (fun a b => cnt b < cnt a ∨ (cnt a = cnt b ∧ Rk a b)) := by
  induction vs with
  | nil => simp [groupConcat]
  | cons v vs ih =>
    rw [List.pairwise_cons] at hvs
    rw [groupConcat, List.pairwise_append]
    refine ⟨?_, ih hvs.2, ?_⟩
    · have hsub : (keys.filter (fun k => cnt k == v)).Pairwise Rk :=
        hkeys.sublist (List.filter_sublist keys)
      refine hsub.imp_of_mem ?_
      intro a b ha hb hab
      rw [List.mem_filter] at ha hb
      right
      have h1 : cnt a = v := by simpa using ha.2
      have h2 : cnt b = v := by simpa using hb.2
      exact ⟨h1.trans h2.symm, hab⟩
    · intro a ha b hb
      rw [List.mem_filter] at ha
      obtain ⟨v', hv', _, hcnt⟩ := mem_groupConcat hb
      left
      have h1 : cnt a = v := by simpa using ha.2
      rw [h1, hcnt]
      exact hvs.1 v' hv'

theorem sortedLangKeys_pairwise (repos : List RawRepo) :
    (sortedLangKeys repos).Pairwise (fun a b =>
      cntOf repos b < cntOf repos a ∨
      (cntOf repos a = cntOf repos b ∧
        posIn a (firstSeenKeys (langsOf repos)) <
          posIn b (firstSeenKeys (langsOf repos)))) := by
  unfold sortedLangKeys
  exact pairwise_groupConcat
    (sortDescNat_pairwise (List.nodup_dedup _))
    (pairwise_posIn (nodup_firstSeenKeys _))

theorem mem_top_languages {repos : List RawRepo} {l : String}
    (h : l ∈ top_languages_of repos) : l ∈ langsOf repos := by
  unfold top_languages_of at h
  have h3 : l ∈ sortedLangKeys repos := (List.take_sublist 3 _).subset h
  unfold sortedLangKeys at h3
  obtain ⟨v, _, hk, _⟩ := mem_groupConcat h3
  exact mem_firstSeenKeys.1 hk

theorem langsOf_ne {repos : List RawRepo} {l : String}
    (h : l ∈ langsOf repos) : l ≠ "" ∧ l ≠ "null" := by
  unfold langsOf at h
  rw [List.mem_filterMap] at h
  obtain ⟨r, _, hr⟩ := h
  cases hlang : r.language with
  | none => rw [hlang] at hr; simp at hr
  | some s =>
    rw [hlang] at hr
    by_cases h1 : s = ""
    · simp [h1] at hr
    · by_cases h2 : s = "null"
      · simp [h1, h2] at hr
      · simp only [h1, h2, or_self, if_false, decide_False, Bool.or_false,
          Bool.false_or, if_neg, Option.some.injEq] at hr
        simp [h1, h2] at hr
        subst hr
        exact ⟨h1, h2⟩

theorem roundHalfEven_intCast (z : ℤ) : roundHalfEven ((z : ℚ)) = z := by
  unfold roundHalfEven
  rw [Int.floor_intCast, sub_self, if_pos (by norm_num)]

theorem roundHalfEven_nonneg {q : ℚ} (h : 0 ≤ q) : 0 ≤ roundHalfEven q := by
  unfold roundHalfEven
  have hf : (0 : ℤ) ≤ ⌊q⌋ := Int.le_floor.2 (by exact_mod_cast h)
  split
  · exact hf
  · split
    · omega
    · split <;> omega

theorem roundHalfEven_le {q : ℚ} {B : ℤ} (h : q ≤ (B : ℚ)) :
    roundHalfEven q ≤ B := by
  unfold roundHalfEven
  have hfB : ⌊q⌋ ≤ B := by
    have h2 := Int.floor_le_floor h
    rwa [Int.floor_intCast] at h2
  by_cases h1 : q - (⌊q⌋ : ℚ) < 1/2
  · rw [if_pos h1]; exact hfB
  · rw [if_neg h1]
    have hlt : ⌊q⌋ < B := by
      rcases eq_or_lt_of_le hfB with he | hlt
      · exfalso
        have h2 : q - (⌊q⌋ : ℚ) ≤ 0 := by
          rw [sub_nonpos, he]
          exact h
        exact h1 (lt_of_le_of_lt h2 (by norm_num))
      · exact hlt
    by_cases h2 : 1/2 < q - (⌊q⌋ : ℚ)
    · rw [if_pos h2]; omega
    · rw [if_neg h2]; split <;> omega

theorem acceptance_rate_bounds {s t : ℤ} (hs : 0 ≤ s) (hst : s ≤ t) :
    0 ≤ acceptance_rate_of s t ∧ acceptance_rate_of s t ≤ 100 := by
  unfold acceptance_rate_of
  by_cases ht : 0 < t
  · rw [if_pos ht]
    unfold round2
    have htq : (0 : ℚ) < (t : ℚ) := by exact_mod_cast ht
    have hq0 : 0 ≤ ((s : ℚ) / (t : ℚ)) * 100 * 100 := by
      have : (0:ℚ) ≤ (s : ℚ) := by exact_mod_cast hs
      positivity
    have hq1 : ((s : ℚ) / (t : ℚ)) * 100 * 100 ≤ ((10000 : ℤ) : ℚ) := by
      have hd : (s : ℚ) / (t : ℚ) ≤ 1 := by
        rw [div_le_one htq]
        exact_mod_cast hst
      push_cast
      nlinarith
    constructor
    · apply div_nonneg _ (by norm_num)
      exact_mod_cast roundHalfEven_nonneg hq0
    · rw [div_le_iff₀ (by norm_num)]
      have h3 : roundHalfEven (((s : ℚ) / (t : ℚ)) * 100 * 100) ≤ 10000 :=
        roundHalfEven_le hq1
      calc ((roundHalfEven (((s : ℚ) / (t : ℚ)) * 100 * 100) : ℤ) : ℚ)
          ≤ ((10000 : ℤ) : ℚ) := by exact_mod_cast h3
        _ = 100 * 100 := by norm_num
  · rw [if_neg ht]; norm_num

theorem daysBetween_nonneg {now ts : ℤ} (h : ts ≤ now) :
    0 ≤ daysBetween now ts := by
  unfold daysBetween
  exact Int.fdiv_nonneg (by omega) (by norm_num)

theorem stripChars_eq_nil {l : List Char} (h : ∀ c ∈ l, isPySpace c = true) :
    stripChars l = [] := by
  unfold stripChars
  have h1 : l.dropWhile isPySpace = [] := List.dropWhile_eq_nil_iff.2 h
  rw [h1]
  rfl

theorem pyStrip_eq_empty {s : String} (h : s.data.all isPySpace = true) :
    pyStrip s = "" := by
  apply String.ext
  show stripChars s.data = ("" : String).data
  rw [stripChars_eq_nil (List.all_eq_true.1 h)]

/-- Claim C3: the acceptance rate equals solvedCount / totalSubmissions
times 100 rounded to 2 decimal places, is exactly 0 when totalSubmissions
is 0 (no division-by-zero fault), and 120 solved of 200 submitted yields
60.0. -/
theorem claim3_acceptance_rate :
    (∀ s : ℤ, acceptance_rate_of s 0 = 0)
    ∧ acceptance_rate_of 120 200 = 60
    ∧ (∀ s t : ℤ, 0 < t →
        acceptance_rate_of s t = round2 (((s : ℚ) / (t : ℚ)) * 100)) := by
  refine ⟨?_, ?_, ?_⟩
  · intro s
    unfold acceptance_rate_of
    rw [if_neg (by omega)]
  · unfold acceptance_rate_of
    rw [if_pos (by norm_num)]
    unfold round2
    rw [show ((120 : ℤ) : ℚ) / ((200 : ℤ) : ℚ) * 100 * 100 = ((6000 : ℤ) : ℚ) by norm_num,
      roundHalfEven_intCast]
    norm_num
  · intro s t ht
    unfold acceptance_rate_of
    rw [if_pos ht]

/-- Witness for C3: the rounding branch taken at 120 solved of 200
submitted. -/
theorem claim3_acceptance_rate_witness :
    (0 : ℤ) < 200 ∧
      acceptance_rate_of 120 200 = round2 ((((120 : ℤ) : ℚ) / ((200 : ℤ) : ℚ)) * 100) :=
  ⟨by decide, claim3_acceptance_rate.2.2 120 200 (by decide)⟩

/-- Claim C4: the top-languages list is the first 3 languages ordered by
descending occurrence count of the primary-language field, absent/null
markers excluded, ties broken by first-seen order; on the worked example
`[Go, Go, Rust, null, Python]` it is `[Go, Rust, Python]`. -/
theorem claim4_top_languages :
    top_languages_of exampleRepos = [("Go"), ("Rust"), ("Python")]
    ∧ (∀ repos, (top_languages_of repos).length ≤ 3)
    ∧ (∀ repos l, l ∈ top_languages_of repos → l ≠ "" ∧ l ≠ "null")
    ∧ (∀ repos, (top_languages_of repos).Pairwise (fun a b =>
        cntOf repos b < cntOf repos a ∨
        (cntOf repos a = cntOf repos b ∧
          posIn a (firstSeenKeys (langsOf repos)) <
            posIn b (firstSeenKeys (langsOf repos))))) := by
  refine ⟨by decide, ?_, ?_, ?_⟩
  · intro repos
    unfold top_languages_of
    rw [List.length_take]
    exact min_le_left _ _
  · intro repos l h
    exact langsOf_ne (mem_top_languages h)
  · intro repos
    exact (sortedLangKeys_pairwise repos).sublist (List.take_sublist 3 _)

/-- Witness for C4: membership of Go in the example output, with the
exclusion facts it implies. -/
theorem claim4_top_languages_witness :
    ("Go") ∈ top_languages_of exampleRepos ∧
      ("Go" : String) ≠ "" ∧ ("Go" : String) ≠ "null" := by
  refine ⟨by decide, ?_⟩
  exact claim4_top_languages.2.2.1 exampleRepos ("Go") (by decide)

/-- Claim C7 (amended): the code does not validate or clamp upstream
values, so out-of-range upstream data yields out-of-range fields; the
invariants hold under the expected preconditions: the acceptance rate
lies in [0, 100] whenever 0 ≤ solved ≤ submissions, and day-based fields
are non-negative whenever the parsed timestamp is not after now. -/
theorem claim7_invariants_amended :
    (∀ s t : ℤ, 0 ≤ s → s ≤ t →
      0 ≤ acceptance_rate_of s t ∧ acceptance_rate_of s t ≤ 100)
    ∧ (∀ now ts : ℤ, ts ≤ now → 0 ≤ daysBetween now ts) :=
  ⟨fun _ _ hs hst => acceptance_rate_bounds hs hst,
   fun _ _ h => daysBetween_nonneg h⟩

/-- Witness for the amended C7 at concrete inputs. -/
theorem claim7_invariants_amended_witness :
    ((0 : ℤ) ≤ 120 ∧ (120 : ℤ) ≤ 200 ∧
      0 ≤ acceptance_rate_of 120 200 ∧ acceptance_rate_of 120 200 ≤ 100)
    ∧ ((3 : ℤ) ≤ 5 ∧ 0 ≤ daysBetween 5 3) :=
  ⟨⟨by decide, by decide,
    (claim7_invariants_amended.1 120 200 (by decide) (by decide)).1,
    (claim7_invariants_amended.1 120 200 (by decide) (by decide)).2⟩,
   ⟨by decide, claim7_invariants_amended.2 5 3 (by decide)⟩⟩

/-- Counterexample to C7 as stated: a successfully returned code-host
record whose account age is -1 days (timestamps parsing to a future
instant), and a successfully returned competitive record whose acceptance
rate is 150 (300 accepted of 200 total submissions reported upstream). -/
theorem claim7_invariants_counterexample :
    ((ghOutcomeRecord (get_github_profile_data (fun _ => some 86400) 0 ("alice")
        (.response 200 futureProfile) (.response 200 []))).map
      (fun r => r.account_age_days) = some (-1))
    ∧ ¬ (0 ≤ (-1 : ℤ))
    ∧ ((lcOutcomeRecord (get_leetcode_profile_data ("bob")
        (.response 200 (some overSubmitUser)))).map
      (fun r => r.acceptance_rate) = some 150)
    ∧ ¬ ((150 : ℚ) ≤ 100) := by
  refine ⟨by decide, by decide, ?_, by norm_num⟩
  have h : (lcOutcomeRecord (get_leetcode_profile_data ("bob")
      (.response 200 (some overSubmitUser)))).map (fun r => r.acceptance_rate)
      = some (acceptance_rate_of 300 200) := rfl
  rw [h, Option.some_inj]
  unfold acceptance_rate_of
  rw [if_pos (by norm_num)]
  unfold round2
  rw [show ((300 : ℤ) : ℚ) / ((200 : ℤ) : ℚ) * 100 * 100 = ((15000 : ℤ) : ℚ) by norm_num,
    roundHalfEven_intCast]
  norm_num

theorem strContains_intro (x y : String) {s t : String}
    (h : s = x ++ (t ++ y)) : strContains s t :=
  ⟨x, y, h⟩

/-- Claim C5: the instruction text of every built code-host record
contains, as exact substrings, the decimal renderings of the record's
total-stars, follower-count and account-age-in-days values. -/
theorem claim5_instruction_contains (login username : String) (p : RawProfile)
    (repos : List RawRepo) (age act : ℤ) :
    strContains (buildGithubRecord login username p repos age act).ai_instruction
      (toString (buildGithubRecord login username p repos age act).total_stars)
    ∧ strContains (buildGithubRecord login username p repos age act).ai_instruction
      (toString (buildGithubRecord login username p repos age act).followers)
    ∧ strContains (buildGithubRecord login username p repos age act).ai_instruction
      (toString (buildGithubRecord login username p repos age act).account_age_days) := by
  refine ⟨?_, ?_, ?_⟩
  · refine strContains_intro
      ("The GitHub user \x27" ++ (username ++ ("\x27 has " ++
        (toString (p.public_repos.getD 0) ++ " public repos with a total of "))))
      (" stars, and " ++ (toString (p.followers.getD 0) ++
        (" followers. Their account is " ++ (toString age ++ (" days old." ++
        (" " ++ (twitter_instruction_of p.twitter_username ++
        " Based on all this data, perform the following two tasks. Part 1: Write a long, detailed, and brutal roast that combines both their GitHub and Twitter persona. Part 2: After the roast, provide a separate section titled \x27Actionable Tips\x27 with 3 concrete pieces of advice for improving their overall online developer presence."))))))) ?_
    simp only [buildGithubRecord, github_instruction, github_stats_summary,
      String.append_assoc]
  · refine strContains_intro
      ("The GitHub user \x27" ++ (username ++ ("\x27 has " ++
        (toString (p.public_repos.getD 0) ++ (" public repos with a total of " ++
        (toString (total_stars_of repos) ++ " stars, and "))))))
      (" followers. Their account is " ++ (toString age ++ (" days old." ++
        (" " ++ (twitter_instruction_of p.twitter_username ++
        " Based on all this data, perform the following two tasks. Part 1: Write a long, detailed, and brutal roast that combines both their GitHub and Twitter persona. Part 2: After the roast, provide a separate section titled \x27Actionable Tips\x27 with 3 concrete pieces of advice for improving their overall online developer presence."))))) ?_
    simp only [buildGithubRecord, github_instruction, github_stats_summary,
      String.append_assoc]
  · refine strContains_intro
      ("The GitHub user \x27" ++ (username ++ ("\x27 has " ++
        (toString (p.public_repos.getD 0) ++ (" public repos with a total of " ++
        (toString (total_stars_of repos) ++ (" stars, and " ++
        (toString (p.followers.getD 0) ++ " followers. Their account is "))))))))
      (" days old." ++ (" " ++ (twitter_instruction_of p.twitter_username ++
        " Based on all this data, perform the following two tasks. Part 1: Write a long, detailed, and brutal roast that combines both their GitHub and Twitter persona. Part 2: After the roast, provide a separate section titled \x27Actionable Tips\x27 with 3 concrete pieces of advice for improving their overall online developer presence."))) ?_
    simp only [buildGithubRecord, github_instruction, github_stats_summary,
      String.append_assoc]

/-- Claim C1: when the profile request succeeds with status 200 (and a
well-formed body: a login and parseable timestamps) but the
repository-list request fails (raised exception, or any non-200 status),
the call still succeeds and the returned record has total stars 0, fork
count 0 and an empty top-languages list. -/
theorem claim1_repo_failure_tolerated
    (parseDate : String → Option ℤ) (now : ℤ) (input u login : String)
    (p : RawProfile) (c upd : ℤ) (repos_res : FetchResult (List RawRepo))
    (hres : _extract_username input = some u) (hne : u ≠ "")
    (hlogin : p.login = some login)
    (hc : parseDate (p.created_at.getD ("")) = some c)
    (hupd : parseDate (p.updated_at.getD ("")) = some upd)
    (hfail : (∃ d, repos_res = .exn d) ∨
      (∃ s body, repos_res = .response s body ∧ s ≠ 200)) :
    ∃ r, get_github_profile_data parseDate now input (.response 200 p) repos_res = .ok r
      ∧ r.total_stars = 0 ∧ r.fork_count = 0 ∧ r.top_languages = [] := by
  refine ⟨buildGithubRecord login u p [] (daysBetween now c) (daysBetween now upd),
    ?_, rfl, rfl, rfl⟩
  simp only [get_github_profile_data, hres]
  rw [if_neg hne]
  rw [if_neg (by decide : ¬((200 : ℤ) = 404))]
  rw [if_neg (by decide : ¬((200 : ℤ) ≠ 200))]
  rcases hfail with ⟨d, rfl⟩ | ⟨s, body, rfl, hs⟩
  · simp only [hc, hupd, hlogin]
  · simp only [if_neg hs, hc, hupd, hlogin]

/-- Witness for C1 at a concrete invocation whose repository request
raised a connection error. -/
theorem claim1_repo_failure_tolerated_witness :
    _extract_username ("alice") = some ("alice") ∧
      (∃ r, get_github_profile_data (fun _ => some 0) 0 ("alice")
          (.response 200 noCreatedProfile) (.exn ("")) = .ok r
        ∧ r.total_stars = 0 ∧ r.fork_count = 0 ∧ r.top_languages = []) :=
  ⟨rfl, claim1_repo_failure_tolerated (fun _ => some 0) 0 ("alice") ("alice")
    ("alice") noCreatedProfile 0 0 (.exn ("")) rfl (by decide) rfl rfl rfl
    (Or.inl ⟨("" : String), rfl⟩)⟩

/-- Claim C2: a 404 profile status yields NotFound (invalid-parameters
code, message naming the handle); any non-404, non-2xx status yields
UpstreamFailure (internal-error code) with the status code embedded in
the message; the two error kinds are never confused. -/
theorem claim2_status_errors
    (parseDate : String → Option ℤ) (now : ℤ) (input u : String)
    (hres : _extract_username input = some u) (hne : u ≠ "") :
    (∀ (p : RawProfile) (repos_res : FetchResult (List RawRepo)),
      get_github_profile_data parseDate now input (.response 404 p) repos_res =
        .err .invalidParams ("User \x27" ++ u ++ "\x27 not found on GitHub.")
      ∧ strContains ("User \x27" ++ u ++ "\x27 not found on GitHub.") u)
    ∧ (∀ (s : ℤ) (p : RawProfile) (repos_res : FetchResult (List RawRepo)),
        s ≠ 404 → ¬(200 ≤ s ∧ s < 300) →
        get_github_profile_data parseDate now input (.response s p) repos_res =
          .err .internalError ("GitHub API returned " ++ toString s ++ " for profile.")
        ∧ strContains ("GitHub API returned " ++ toString s ++ " for profile.")
            (toString s)) := by
  constructor
  · intro p repos_res
    constructor
    · simp only [get_github_profile_data, hres]
      rw [if_neg hne]
      simp
    · exact strContains_intro ("User \x27") ("\x27 not found on GitHub.")
        (String.append_assoc _ _ _)
  · intro s p repos_res h404 h2xx
    have hs200 : s ≠ 200 := by
      intro e
      exact h2xx ⟨by omega, by omega⟩
    constructor
    · simp only [get_github_profile_data, hres]
      rw [if_neg hne, if_neg h404, if_pos hs200]
    · exact strContains_intro ("GitHub API returned ") (" for profile.")
        (String.append_assoc _ _ _)

/-- Witness for C2 at statuses 404 and 500 for the handle alice. -/
theorem claim2_status_errors_witness :
    (get_github_profile_data (fun _ => none) 0 ("alice")
        (.response 404 noCreatedProfile) (.exn ("")) =
      .err .invalidParams ("User \x27" ++ "alice" ++ "\x27 not found on GitHub."))
    ∧ (get_github_profile_data (fun _ => none) 0 ("alice")
        (.response 500 noCreatedProfile) (.exn ("")) =
      .err .internalError ("GitHub API returned " ++ toString (500 : ℤ) ++ " for profile.")) :=
  ⟨((claim2_status_errors (fun _ => none) 0 ("alice") ("alice") rfl
      (by decide)).1 noCreatedProfile (.exn (""))).1,
   ((claim2_status_errors (fun _ => none) 0 ("alice") ("alice") rfl
      (by decide)).2 500 noCreatedProfile (.exn ("")) (by decide) (by decide)).1⟩

/-- Claim C6, evaluated at the failing input: a 200 profile response
whose body lacks `created_at` makes the code hand the empty string to the
date parser, whose exception escapes the tool function uncaught — the
call crashes instead of failing with a typed McpError. -/
theorem claim6_missing_required_field_crashes
    (parseDate : String → Option ℤ) (h : parseDate ("") = none) :
    get_github_profile_data parseDate 0 ("alice")
      (.response 200 noCreatedProfile) (.response 200 []) =
      .crash ("uncaught dateutil ParserError") := by
  have h0 : _extract_username ("alice") = some ("alice") := rfl
  have h2 : noCreatedProfile.created_at.getD ("") = "" := rfl
  simp [get_github_profile_data, h0, h2, h]

/-- Witness for C6 with a parser that raises on every input. -/
theorem claim6_missing_required_field_crashes_witness :
    ((fun _ => none) : String → Option ℤ) ("") = none ∧
      get_github_profile_data (fun _ => none) 0 ("alice")
        (.response 200 noCreatedProfile) (.response 200 []) =
        .crash ("uncaught dateutil ParserError") :=
  ⟨rfl, claim6_missing_required_field_crashes (fun _ => none) rfl⟩

/-- Claim C8: an input that is empty or consists only of whitespace is
rejected with the InvalidInput error (invalid-parameters code),
independently of the network outcomes — no network result can change the
answer, so no network call is needed. -/
theorem claim8_whitespace_rejected (input : String)
    (h : input.data.all isPySpace = true) :
    ∀ (parseDate : String → Option ℤ) (now : ℤ)
      (profile_res : FetchResult RawProfile)
      (repos_res : FetchResult (List RawRepo)),
      get_github_profile_data parseDate now input profile_res repos_res =
        .err .invalidParams ("Invalid username or URL.") := by
  intro parseDate now profile_res repos_res
  have hstrip : pyStrip input = "" := pyStrip_eq_empty h
  have h0 : _extract_username input = some ("") := by
    simp [_extract_username, hstrip,
      show listContains ("github.com").data ([] : List Char) = false from rfl]
  simp [get_github_profile_data, h0]

/-- Witness for C8 on a two-space input with arbitrary network
outcomes. -/
theorem claim8_whitespace_rejected_witness :
    ((("  ") : String).data.all isPySpace = true) ∧
      get_github_profile_data (fun _ => none) 0 ("  ") (.exn ("")) (.exn ("")) =
        .err .invalidParams ("Invalid username or URL.") :=
  ⟨by decide, claim8_whitespace_rejected ("  ") (by decide) (fun _ => none) 0
    (.exn ("")) (.exn (""))⟩

/-- Claim C9: a non-empty already-bare handle (no surrounding whitespace,
no hosting-domain substring) is returned unchanged by the resolver, and
resolution is idempotent on such outputs. -/
theorem claim9_resolver_identity (s : String) (_h1 : s ≠ "")
    (h2 : pyStrip s = s)
    (h3 : listContains ("github.com").data s.data = false) :
    _extract_username s = some s ∧
      ∀ t, _extract_username s = some t → _extract_username t = some t := by
  have hmain : _extract_username s = some s := by
    simp [_extract_username, h2, h3]
  refine ⟨hmain, ?_⟩
  intro t ht
  rw [hmain] at ht
  injection ht with he
  rw [← he]
  exact hmain

/-- Witness for C9 on the bare handle alice. -/
theorem claim9_resolver_identity_witness :
    ((("alice") : String) ≠ "") ∧ pyStrip ("alice") = ("alice") ∧
      listContains ("github.com").data (("alice") : String).data = false ∧
      _extract_username ("alice") = some ("alice") :=
  ⟨by decide, rfl, rfl,
    (claim9_resolver_identity ("alice") (by decide) rfl rfl).1⟩

/-- Claim C10: for a response whose profile object lacks the ranking
field, the returned record's ranking is 0 while the instruction text
renders the ranking slot as N/A — the two can disagree for the same
response. -/
theorem claim10_ranking_divergence (uname du : String) (rep : Option ℤ)
    (stats : List LCSubmitEntry) :
    ((lcOutcomeRecord (get_leetcode_profile_data uname
        (.response 200 (some ⟨some du, some ⟨none, rep⟩, some stats⟩)))).map
      (fun r => r.ranking) = some 0)
    ∧ ∃ rest : String,
      ((lcOutcomeRecord (get_leetcode_profile_data uname
          (.response 200 (some ⟨some du, some ⟨none, rep⟩, some stats⟩)))).map
        (fun r => r.ai_instruction)) =
      some ("The LeetCode user \x27" ++ (uname ++ ("\x27 has a ranking of " ++
        ("N/A" ++ rest)))) := by
  have hout : get_leetcode_profile_data uname
      (.response 200 (some ⟨some du, some ⟨none, rep⟩, some stats⟩)) =
      .ok (buildLeetcodeRecord uname du ⟨none, rep⟩ stats) := by
    simp [get_leetcode_profile_data]
  constructor
  · rw [hout]
    rfl
  · refine ⟨" and has solved a total of " ++ (toString (tierCount stats ("All")) ++
      (" problems (" ++ (toString (tierCount stats ("Easy")) ++ (" Easy, " ++
      (toString (tierCount stats ("Medium")) ++ (" Medium, " ++
      (toString (tierCount stats ("Hard")) ++
      (" Hard). Their overall acceptance rate is a pitiful " ++
      (ratDisplay (acceptance_rate_of (tierCount stats ("All"))
        (tierSubmissions stats ("All"))) ++
      "%. Based on these stats, perform two tasks. Part 1: Write a savage roast about their problem-solving skills, focusing on their acceptance rate and difficulty distribution. Part 2: After the roast, give them a section called \x27Grind Plan\x27 with 3 actionable tips on how to actually get good at DSA."))))))))), ?_⟩
    rw [hout]
    simp only [lcOutcomeRecord, Option.map_some]
    simp only [buildLeetcodeRecord, leetcode_instruction, rankingDisplay,
      String.append_assoc]
    rfl
